import Mathlib

/-!
Verification development for the p2p_naira repository (src/main.py).

The Python program scrapes P2P crypto listings from two exchanges
(Bybit via a browser page, Binance via a JSON API), normalizes them,
derives a cross-currency rate from each source's cheapest listing, and
appends a combined record to accumulating Excel/JSON stores.

This file shallowly embeds the pure logic of that program:
strings of price text become `List Char`, Python floats become `ℚ`,
fallible steps (caught exceptions, absent dict keys) become `Option`,
and the environment-dependent parts (browser, network, clock,
filesystem) are abstracted into explicit inputs and state values.
-/

namespace P2PNaira

/-! ## Data model

`Listing` is the normalized offer shape both clients produce:
a dict with keys price / timestamp / available_amount /
payment_methods / merchant_name.  The timestamp is a wall-clock
capture instant with no logical content, so it is omitted from the
embedding.  In Bybit rows the three auxiliary fields may be absent
(the `_extract_additional_info` helper returns `{}` on failure), which
we model with an `Option` around the auxiliary-field record. -/

structure AuxInfo where
  available_amount : String
  payment_methods : String
  merchant_name : String
deriving DecidableEq

structure Listing where
  price : ℚ
  aux : Option AuxInfo
deriving DecidableEq

/-- Ordering used by both clients: `sort(key=lambda x: x['price'])`. -/
def priceLe (a b : Listing) : Prop := a.price ≤ b.price

instance : DecidableRel priceLe :=
  fun a b => show Decidable (a.price ≤ b.price) from inferInstance

instance : IsTotal Listing priceLe := ⟨fun a b => le_total a.price b.price⟩

instance : IsTrans Listing priceLe := ⟨fun _ _ _ h1 h2 => le_trans h1 h2⟩

/-- Result envelope of one acquisition call.  The Python code returns a
dict whose key set varies: success results carry a listings key
(`"BYBIT"` / `"BINANCE"`) and Bybit additionally a metadata dict with
row counts; failure results carry `"data": None` and a `"message"`.
Absent keys are `none`. -/
structure FetchResult where
  success : Bool
  listings : Option (List Listing) := none
  message : Option String := none
  total_rows_found : ℕ := 0
  valid_listings_found : ℕ := 0
deriving DecidableEq

namespace BybitScraper

/-! ## Listing normalizer (`BybitScraper._clean_price`)

```python
def _clean_price(self, price_text):
    try:
        if not price_text or price_text.isspace():
            return None
        price_str = re.sub(r'[^\d.]', '', price_text.split('\n')[0])
        return float(price_str) if price_str else None
    except Exception:
        return None
```
-/

/-- Python `str.isspace()`: nonempty and every character whitespace
(restricted here, as everywhere in this file, to the ASCII repertoire
the scraped pages use). -/
def isspace (s : List Char) : Bool := !s.isEmpty && s.all Char.isWhitespace

/-- Python `price_text.split('\n')[0]`: the characters before the
first line break. -/
def beforeNewline (s : List Char) : List Char := s.takeWhile (fun c => c ≠ '\n')

/-- Python `re.sub(r'[^\d.]', '', s)`: keep only digits and dots. -/
def keepDigitsDot (s : List Char) : List Char :=
  s.filter (fun c => c.isDigit || c == '.')

/-- The `price_str` value computed by `_clean_price`: digit/dot
characters retained from the text before the first line break. -/
def retained (s : List Char) : List Char := keepDigitsDot (beforeNewline s)

/-- Numeric value of a digit string, most significant digit first. -/
def digitsToNat (s : List Char) : ℕ :=
  s.foldl (fun a c => 10 * a + (c.toNat - 48)) 0

/-- Digits before the (first) dot. -/
def intPart (s : List Char) : List Char := s.takeWhile (fun c => c ≠ '.')

/-- Digits after the (first) dot. -/
def fracPart (s : List Char) : List Char :=
  (s.dropWhile (fun c => c ≠ '.')).drop 1

/-- The rational denoted by a digit/dot string accepted by Python
`float`: integer part plus fractional part scaled by a power of ten,
written as a single quotient. -/
def pyFloatVal (s : List Char) : ℚ :=
  mkRat (digitsToNat (intPart s) * 10 ^ (fracPart s).length + digitsToNat (fracPart s))
    (10 ^ (fracPart s).length)

/-- Python `float(s)` on a string consisting only of digits and dots:
it succeeds exactly when the string has at least one digit and at most
one dot, and a failure raises `ValueError` (which `_clean_price`
catches and converts to `None`), modelled as `none`. -/
def pyFloat (s : List Char) : Option ℚ :=
  if s.any Char.isDigit = true ∧ s.count '.' ≤ 1 then some (pyFloatVal s)
  else none

/-- `BybitScraper._clean_price` over the character-list model of the
input string. -/
def clean_price (price_text : List Char) : Option ℚ :=
  if price_text.isEmpty || isspace price_text then none
  else if (retained price_text).isEmpty then none
  else pyFloat (retained price_text)

/-! ## Exchange-A client (`BybitScraper.get_p2p_listings`)

```python
for attempt in range(max_retries):
    try:
        self.driver.get(url)
        WebDriverWait(...).until(presence of tbody)
        time.sleep(5)
        self.driver.save_screenshot(...)
        listings = []
        rows = self.driver.find_elements(By.CSS_SELECTOR, "tbody tr")
        for row in rows:
            try:
                price_text = row.find_element("td:nth-child(2)").text.strip()
                cleaned_price = self._clean_price(price_text)
                if cleaned_price is not None:
                    listings.append(\x7b'price': cleaned_price, ...,
                                     **self._extract_additional_info(row)\x7d)
            except (NoSuchElementException, Exception):
                continue
        valid_listings = [l for l in listings if l['price'] is not None]
        valid_listings.sort(key=lambda x: x['price'])
        return \x7b"success": True, "BYBIT": valid_listings, "metadata": ...\x7d
    except TimeoutException:
        if attempt == max_retries - 1:
            return \x7b"success": False, "data": None, "message": "Timeout error: ..."\x7d
        time.sleep(5)
    except Exception as e:
        return \x7b"success": False, "data": None, "message": f"Error: \x7be\x7d"\x7d
```

A browser row is modelled by what the scraper reads from it: the
stripped text of the price cell (`none` when the cell is missing and
`find_element` raises, which the per-row handler swallows), and the
auxiliary fields (`none` when `_extract_additional_info` falls back to
`\x7b\x7d`). -/

structure Row where
  priceCell : Option (List Char)
  auxFields : Option AuxInfo
deriving DecidableEq

/-- `BybitScraper._extract_additional_info`: best-effort auxiliary
field extraction; an exception inside it yields the empty dict. -/
def extract_additional_info (row : Row) : Option AuxInfo := row.auxFields

/-- One iteration of the row loop: the listing contributed by a row,
or `none` when the price cell is missing or its text cleans to `None`
(the per-row `try`/`continue` and the `is not None` check). -/
def rowListing (row : Row) : Option Listing :=
  match row.priceCell with
  | none => none
  | some t =>
    match clean_price t with
    | none => none
    | some p => some ⟨p, extract_additional_info row⟩

/-- The `listings` list built by the row loop (equal to
`valid_listings` before sorting: the `l['price'] is not None` filter
never removes anything, since only non-`None` prices are appended). -/
def collectListings (rows : List Row) : List Listing := rows.filterMap rowListing

/-- The success envelope returned after a page renders: listings
sorted ascending by price, plus the row counts stored in metadata. -/
def pageSuccess (rows : List Row) : FetchResult :=
  { success := true
  , listings := some (List.insertionSort priceLe (collectListings rows))
  , total_rows_found := rows.length
  , valid_listings_found := (collectListings rows).length }

/-- Failure envelope after the last attempt times out. -/
def timeoutFailure : FetchResult :=
  { success := false
  , message := some "Timeout error: Page failed to load after multiple attempts" }

/-- Failure envelope for a non-timeout exception. -/
def unexpectedFailure (msg : String) : FetchResult :=
  { success := false, message := some ("Error: " ++ msg) }

/-- What the environment does on one attempt of the retry loop:
the page render times out, some other exception escapes the `try`
body, or the page renders with a given list of rows. -/
inductive AttemptOutcome where
  | timeout
  | unexpected (msg : String)
  | page (rows : List Row)
deriving DecidableEq

/-- The attempt loop of `get_p2p_listings`, over the sequence of
per-attempt outcomes (element `i` is what attempt `i` encounters, so
the list length is `max_retries`).  A rendered page returns the
success envelope; a non-timeout exception returns immediately; a
timeout returns the timeout failure on the last attempt and otherwise
sleeps and retries.  `none` is Python's implicit `None` when the loop
ends without returning. -/
def get_p2p_listings : List AttemptOutcome → Option FetchResult
  | [] => none
  | o :: rest =>
    match o with
    | .page rows => some (pageSuccess rows)
    | .unexpected m => some (unexpectedFailure m)
    | .timeout => if rest.isEmpty then some timeoutFailure else get_p2p_listings rest

/-- `get_p2p_listings` with the Python signature: `max_retries` is an
integer (default 10) and `range(max_retries)` drives the loop, so a
non-positive value yields zero iterations. -/
def get_p2p_listingsN (outcomes : ℕ → AttemptOutcome) (max_retries : ℤ) :
    Option FetchResult :=
  get_p2p_listings ((List.range max_retries.toNat).map outcomes)

end BybitScraper

namespace BinanceP2PAPI

/-! ## Exchange-B client (`BinanceP2PAPI.get_p2p_listings`)

```python
try:
    response = self.session.post(self.BASE_URL, json=payload)
    response.raise_for_status()
    data = response.json()
    if not isinstance(data, dict) or "data" not in data:
        raise ValueError("Invalid response format from Binance API")
    listings = []
    for ad in data["data"]:
        listing_data = \x7b'price': float(ad["adv"]["price"]), ...,
                        'available_amount': ad["adv"]["surplusAmount"],
                        'payment_methods': ", ".join(m["identifier"] for m in ad["adv"]["tradeMethods"]),
                        'merchant_name': ad["advertiser"].get("nickName", "Unknown")\x7d
        listings.append(listing_data)
    listings.sort(key=lambda x: x['price'])
    return \x7b"success": True, "BINANCE": listings\x7d
except requests.exceptions.RequestException as e:
    return \x7b"success": False, "data": None, "message": f"Request failed: \x7be\x7d"\x7d
except Exception as e:
    return \x7b"success": False, "data": None, "message": f"Unexpected error: \x7be\x7d"\x7d
```
-/

/-- One advertisement object of the response's `data` array, as the
client reads it.  `price` is the value of `float(ad["adv"]["price"])`:
`none` models a missing or non-numeric price field, where the lookup
or conversion raises. -/
structure Ad where
  price : Option ℚ
  surplusAmount : String
  tradeMethods : List String
  nickName : Option String
deriving DecidableEq

/-- The listing dict built for one advertisement, `none` when the
price raises. -/
def adListing (ad : Ad) : Option Listing :=
  match ad.price with
  | none => none
  | some p =>
    some ⟨p, some ⟨ad.surplusAmount, String.intercalate ", " ad.tradeMethods,
      ad.nickName.getD "Unknown"⟩⟩

/-- The `for ad in data["data"]` loop: all listings in order, or
`none` as soon as one advertisement raises (the exception aborts the
whole call, discarding the partial local list). -/
def buildListings : List Ad → Option (List Listing)
  | [] => some []
  | ad :: ads =>
    match adListing ad with
    | none => none
    | some l => (buildListings ads).map (fun ls => l :: ls)

/-- What the network layer hands the client: a transport-level error
(`requests.exceptions.RequestException`, including HTTP error statuses
surfaced by `raise_for_status` after the adapter's retries), a JSON
body that is not a dict with a `"data"` key, or the `data` array. -/
inductive ResponseOutcome where
  | requestError (msg : String)
  | badFormat
  | payload (ads : List Ad)
deriving DecidableEq

/-- Python's message for the exception raised while building a listing
from a malformed advertisement; the exact text depends on the runtime
(`"could not convert string to float: ..."`, `KeyError`, ...), so it
is modelled as a fixed descriptive constant. -/
def malformedAdMsg : String := "Unexpected error: invalid advertisement record"

/-- `BinanceP2PAPI.get_p2p_listings` over the response outcome. -/
def get_p2p_listings (resp : ResponseOutcome) : FetchResult :=
  match resp with
  | .requestError m => { success := false, message := some ("Request failed: " ++ m) }
  | .badFormat =>
    { success := false
    , message := some "Unexpected error: Invalid response format from Binance API" }
  | .payload ads =>
    match buildListings ads with
    | none => { success := false, message := some malformedAdMsg }
    | some ls => { success := true, listings := some (List.insertionSort priceLe ls) }

end BinanceP2PAPI

namespace DataSaver

/-! ## Persistence sink (the third, uncommented `DataSaver`)

`save_data` combines the two fetch results into one record and, when
at least one source contributed, appends it to a continuous Excel
store and a continuous JSON store.  The stores are modelled by the
sequences a read-back would produce; the returned paths are modelled
by `Option Unit` (`some ()` standing for the returned `Path`). -/

/-- The combined dict built by `save_data`:

```python
combined_data = \x7b"success": False, "timestamp": ..., "bybit": [], "binance": []\x7d
if bybit_data and bybit_data.get("success") and bybit_data.get("BYBIT"):
    combined_data["success"] = True
    combined_data["bybit"] = bybit_data["BYBIT"]
if binance_data and binance_data.get("success") and binance_data.get("BINANCE"):
    combined_data["success"] = True
    combined_data["binance"] = binance_data["BINANCE"]
```
-/
structure CombinedData where
  success : Bool
  bybit : List Listing
  binance : List Listing
deriving DecidableEq

/-- Python truthiness of
`d and d.get("success") and d.get("BYBIT"/"BINANCE")`: the argument
was passed (not `None`), its success flag is set, and its listings key
is present with a non-empty list. -/
def dataPresent (d : Option FetchResult) : Bool :=
  match d with
  | none => false
  | some r => r.success && !(r.listings.getD []).isEmpty

/-- The listing sequence a source contributes to the combined record:
its listings when `dataPresent`, otherwise the initial `[]`. -/
def contributed (d : Option FetchResult) : List Listing :=
  match d with
  | none => []
  | some r =>
    if r.success && !(r.listings.getD []).isEmpty then r.listings.getD [] else []

/-- The `combined_data` record built by `save_data`. -/
def combined_data (bybit_data binance_data : Option FetchResult) : CombinedData :=
  { success := dataPresent bybit_data || dataPresent binance_data
  , bybit := contributed bybit_data
  , binance := contributed binance_data }

/-- A listing row tagged with its `source` column. -/
abbrev TaggedRow := Listing × String

/-- State of the continuous Excel store: `none` when the file does not
exist, otherwise the rows a `read_excel` would return. -/
abbrev ExcelStore := Option (List TaggedRow)

/-- State of the continuous JSON store as `save_to_continuous_json`
classifies it: missing (or empty, `os.path.getsize == 0`), existing
but failing `json.load` (`JSONDecodeError`), or a well-formed list of
records. -/
inductive JsonStore where
  | missing
  | corrupt
  | wellFormed (entries : List CombinedData)
deriving DecidableEq

/-- The prior entry list `save_to_continuous_json` starts from: a
missing, empty or corrupt file is treated as the empty list. -/
def readEntries : JsonStore → List CombinedData
  | .missing => []
  | .corrupt => []
  | .wellFormed entries => entries

/-- `DataSaver.save_to_continuous_excel` as called by `save_data`
(both the `'bybit'` and `'binance'` keys are always present in the
dict it passes, so the `dfs` list is never empty and the store is
always rewritten): existing rows, then Bybit rows tagged `"Bybit"`,
then Binance rows tagged `"Binance"`. -/
def save_to_continuous_excel (st : ExcelStore) (bybit binance : List Listing) :
    ExcelStore × Option Unit :=
  let combined : List TaggedRow :=
    bybit.map (fun l => (l, "Bybit")) ++ binance.map (fun l => (l, "Binance"))
  match st with
  | some existing => (some (existing ++ combined), some ())
  | none => (some combined, some ())

/-- `DataSaver.save_to_continuous_json`: read the prior entries
(tolerating a missing, empty or corrupt file), append the record,
rewrite the file, and return its path. -/
def save_to_continuous_json (st : JsonStore) (d : CombinedData) :
    JsonStore × Option Unit :=
  (.wellFormed (readEntries st ++ [d]), some ())

/-- Both stores together. -/
structure Stores where
  excel : ExcelStore
  json : JsonStore
deriving DecidableEq

/-- Paths returned by `save_data`. -/
structure SavedFiles where
  continuous_excel_path : Option Unit
  continuous_json_path : Option Unit
deriving DecidableEq

/-- `DataSaver.save_data`: build the combined record and, only when
its success flag is set, write both stores. -/
def save_data (st : Stores) (bybit_data binance_data : Option FetchResult) :
    Stores × SavedFiles :=
  let cd := combined_data bybit_data binance_data
  if cd.success then
    let e := save_to_continuous_excel st.excel cd.bybit cd.binance
    let j := save_to_continuous_json st.json cd
    (⟨e.1, j.1⟩, ⟨e.2, j.2⟩)
  else (st, ⟨none, none⟩)

/-- Appending a batch of records through `save_to_continuous_json`,
one run at a time. -/
def appendRecords (st : JsonStore) (ds : List CombinedData) : JsonStore :=
  ds.foldl (fun s d => (save_to_continuous_json s d).1) st

end DataSaver

/-! ## Rate derivation (in `main`)

```python
rate_xaf = 1000/resultbnb['BINANCE'][0]['price']
rate_ngn = rate_xaf * resultbyb['BYBIT'][0]['price']
resultbyb["RATE"] = rate_ngn
```
-/

/-- The fixed reference notional used by the derivation. -/
def reference_amount : ℚ := 1000

/-- The derivation step of `main` over the two sorted price lists.
The code indexes `[0]` into both lists with no guard: `none` models
the `IndexError` (or `KeyError` when a failed fetch has no listings
key at all, or `ZeroDivisionError` on a zero price) that propagates
out of the derivation into `main`'s blanket `except`, which prints a
generic `"Error in main execution: ..."` line. -/
def deriveRate (binancePrices bybitPrices : List ℚ) : Option ℚ :=
  match binancePrices, bybitPrices with
  | pb :: _, pa :: _ => if pb = 0 then none else some (reference_amount / pb * pa)
  | _, _ => none

/-! ## Helper lemmas -/

namespace BybitScraper

/-- `pyFloatVal` is the usual decimal reading: integer part plus
fractional digits over the matching power of ten. -/
lemma pyFloatVal_eq (s : List Char) :
    pyFloatVal s = (digitsToNat (intPart s) : ℚ) +
      (digitsToNat (fracPart s) : ℚ) / (10 : ℚ) ^ (fracPart s).length := by
  have h10 : ((10 : ℚ) ^ (fracPart s).length) ≠ 0 := pow_ne_zero _ (by norm_num)
  rw [pyFloatVal, Rat.mkRat_eq_div]
  push_cast
  rw [add_div, mul_div_assoc, div_self h10, mul_one]

lemma pyFloatVal_nonneg (s : List Char) : 0 ≤ pyFloatVal s := by
  rw [pyFloatVal_eq]
  have h1 : (0 : ℚ) ≤ (digitsToNat (intPart s) : ℚ) := Nat.cast_nonneg _
  have h2 : (0 : ℚ) ≤ (digitsToNat (fracPart s) : ℚ) := Nat.cast_nonneg _
  have h3 : (0 : ℚ) ≤ (10 : ℚ) ^ (fracPart s).length := by
    exact pow_nonneg (by norm_num) _
  exact add_nonneg h1 (div_nonneg h2 h3)

lemma not_whitespace_of_isDigit {c : Char} (h : c.isDigit = true) :
    c.isWhitespace = false := by
  cases hv : c.isWhitespace
  · rfl
  · exfalso
    have hc : ((c = ' ' ∨ c = '\t') ∨ c = '\r') ∨ c = '\n' := by
      simpa [Char.isWhitespace] using hv
    rcases hc with ((rfl | rfl) | rfl) | rfl <;> exact absurd h (by decide)

lemma mem_of_mem_retained {c : Char} {s : List Char} (h : c ∈ retained s) :
    c ∈ s := by
  have h1 : c ∈ beforeNewline s := List.mem_of_mem_filter h
  exact (List.takeWhile_prefix _).subset h1

/-- When the retained digit/dot string has a digit, the two leading
guards of `_clean_price` do not fire. -/
lemma clean_price_eq_pyFloat {s : List Char}
    (h : (retained s).any Char.isDigit = true) :
    clean_price s = pyFloat (retained s) := by
  obtain ⟨c, hcr, hcd⟩ := List.any_eq_true.mp h
  have hcs : c ∈ s := mem_of_mem_retained hcr
  have hne : s.isEmpty = false := by
    cases hv : s.isEmpty
    · rfl
    · exact absurd (List.isEmpty_iff.mp hv ▸ hcs) (List.not_mem_nil c)
  have hsp : isspace s = false := by
    unfold isspace
    cases hall : s.all Char.isWhitespace
    · simp
    · exact absurd (List.all_eq_true.mp hall c hcs)
        (by simp [not_whitespace_of_isDigit hcd])
  have hrne : (retained s).isEmpty = false := by
    cases hv : (retained s).isEmpty
    · rfl
    · exact absurd (List.isEmpty_iff.mp hv ▸ hcr) (List.not_mem_nil c)
  unfold clean_price
  rw [hne, hsp, hrne]
  simp

end BybitScraper

/-! ## Claims -/

/-- **C1** (code behaviour at the failing input).  When both listing
sequences are non-empty (and the Binance head price is non-zero), the
derived rate is `(reference_amount / priceB_cheapest) * priceA_cheapest`
with `reference_amount = 1000`; but when either cheapest-price list is
empty, the derivation does not fail with an explicit error: it raises
an unguarded indexing exception (modelled `none`), which only `main`'s
blanket handler turns into a generic message. -/
theorem deriveRate_spec :
    (∀ (pb pa : ℚ) (tb ta : List ℚ), pb ≠ 0 →
      deriveRate (pb :: tb) (pa :: ta) = some (reference_amount / pb * pa)) ∧
    deriveRate [] [1450] = none ∧ deriveRate [1555] [] = none := by
  refine ⟨fun pb pa tb ta h => ?_, rfl, rfl⟩
  simp only [deriveRate]
  rw [if_neg h]

theorem deriveRate_spec_witness :
    deriveRate [1555] [1450] = some (reference_amount / 1555 * 1450) :=
  deriveRate_spec.1 1555 1450 [] [] (by norm_num)

/-- **C2** (counterexample).  The claim "for every input string
containing at least one digit, cleanPrice returns a number" is false:
`"abc\n123"` contains digits but they all sit after the first line
break, and `"1.2.3"` contains digits but its retained text has two
dots, so `float` raises and the handler returns `None`; both inputs
clean to `none`. -/
theorem cleanPrice_counterexample :
    (("abc\n123".toList.any Char.isDigit) = true ∧
      BybitScraper.clean_price "abc\n123".toList = none) ∧
    (("1.2.3".toList.any Char.isDigit) = true ∧
      BybitScraper.clean_price "1.2.3".toList = none) := by
  decide

/-- **C2** (amended).  For every input string whose retained digit/dot
characters before the first line break include at least one digit and
at most one dot, `_clean_price` returns the non-negative number those
characters form (`pyFloatVal`, the decimal reading by
`pyFloatVal_eq`); when no digit survives before the first line break,
or more than one dot survives, it returns `None`; it never throws. -/
theorem cleanPrice_corrected (cs : List Char) :
    ((BybitScraper.retained cs).any Char.isDigit = true →
      (BybitScraper.retained cs).count '.' ≤ 1 →
      BybitScraper.clean_price cs =
        some (BybitScraper.pyFloatVal (BybitScraper.retained cs)) ∧
      0 ≤ BybitScraper.pyFloatVal (BybitScraper.retained cs)) ∧
    ((BybitScraper.retained cs).any Char.isDigit = false →
      BybitScraper.clean_price cs = none) ∧
    (¬ (BybitScraper.retained cs).count '.' ≤ 1 →
      BybitScraper.clean_price cs = none) := by
  refine ⟨fun h1 h2 => ?_, fun h0 => ?_, fun hc2 => ?_⟩
  · rw [BybitScraper.clean_price_eq_pyFloat h1]
    unfold BybitScraper.pyFloat
    rw [if_pos ⟨h1, h2⟩]
    exact ⟨rfl, BybitScraper.pyFloatVal_nonneg _⟩
  · unfold BybitScraper.clean_price BybitScraper.pyFloat
    split_ifs with hg hr hcond
    · rfl
    · rfl
    · exact absurd hcond.1 (by simp [h0])
    · rfl
  · unfold BybitScraper.clean_price BybitScraper.pyFloat
    split_ifs with hg hr hcond
    · rfl
    · rfl
    · exact absurd hcond.2 hc2
    · rfl

theorem cleanPrice_corrected_witness :
    BybitScraper.clean_price "N 1,450.50\nLagos".toList =
      some (BybitScraper.pyFloatVal (BybitScraper.retained "N 1,450.50\nLagos".toList)) ∧
    0 ≤ BybitScraper.pyFloatVal (BybitScraper.retained "N 1,450.50\nLagos".toList) :=
  (cleanPrice_corrected _).1 (by decide) (by decide)


namespace BybitScraper

lemma clean_price_nonneg {t : List Char} {q : ℚ} (h : clean_price t = some q) :
    0 ≤ q := by
  unfold clean_price pyFloat at h
  split_ifs at h
  cases h
  exact pyFloatVal_nonneg _

end BybitScraper

/-- **C3** (counterexample).  The positivity half of the claim fails:
a Bybit row whose price cell reads `"0"` survives cleaning (the
cleaned price is `0.0`, which is not `None`) and lands in a
`success=True` result with price `0`, and a Binance advertisement
whose price field reads `"-5"` parses by `float` into a `success=True`
result with price `-5`; neither is positive. -/
theorem listingsPositive_counterexample :
    ((BybitScraper.pageSuccess [⟨some ['0'], none⟩]).success = true ∧
      (BybitScraper.pageSuccess [⟨some ['0'], none⟩]).listings = some [⟨0, none⟩] ∧
      ¬ (0 : ℚ) < 0) ∧
    ((BinanceP2PAPI.get_p2p_listings (.payload [⟨some (-5), "", [], none⟩])).success = true ∧
      (BinanceP2PAPI.get_p2p_listings (.payload [⟨some (-5), "", [], none⟩])).listings =
        some [⟨-5, some ⟨"", "", "Unknown"⟩⟩] ∧
      ¬ (0 : ℚ) < -5) := by
  decide

/-- **C3** (amended).  Every successful fetch result of either client
carries a listing sequence sorted ascending by price; Exchange-A
prices are additionally non-negative (they are read off digit/dot
text), but neither client guarantees strictly positive prices. -/
theorem listingsSorted_corrected (rows : List BybitScraper.Row)
    (ads : List BinanceP2PAPI.Ad) :
    List.Sorted priceLe ((BybitScraper.pageSuccess rows).listings.getD []) ∧
    (∀ l ∈ (BybitScraper.pageSuccess rows).listings.getD [], 0 ≤ l.price) ∧
    List.Sorted priceLe
      ((BinanceP2PAPI.get_p2p_listings (.payload ads)).listings.getD []) := by
  refine ⟨?_, ?_, ?_⟩
  · exact List.sorted_insertionSort priceLe _
  · intro l hl
    simp only [BybitScraper.pageSuccess, Option.getD_some, List.mem_insertionSort] at hl
    obtain ⟨row, hrow, hfl⟩ := List.mem_filterMap.mp hl
    rcases hcell : row.priceCell with _ | t
    · simp [BybitScraper.rowListing, hcell] at hfl
    · rcases hcp : BybitScraper.clean_price t with _ | p
      · simp [BybitScraper.rowListing, hcell, hcp] at hfl
      · simp only [BybitScraper.rowListing, hcell, hcp, Option.some.injEq] at hfl
        cases hfl
        exact BybitScraper.clean_price_nonneg hcp
  · rcases hb : BinanceP2PAPI.buildListings ads with _ | ls
    · simp [BinanceP2PAPI.get_p2p_listings, hb, List.sorted_nil]
    · simpa [BinanceP2PAPI.get_p2p_listings, hb] using
        List.sorted_insertionSort priceLe ls

theorem listingsSorted_corrected_witness :
    List.Sorted priceLe
      ((BybitScraper.pageSuccess [⟨some ['1', '2'], none⟩]).listings.getD []) ∧
    0 ≤ (Listing.mk 12 none).price :=
  ⟨(listingsSorted_corrected [⟨some ['1', '2'], none⟩] []).1,
   (listingsSorted_corrected [⟨some ['1', '2'], none⟩] []).2.1 ⟨12, none⟩ (by decide)⟩


/-- **C5**.  A page containing a single malformed row (its price cell
missing, or its text cleaning to `None`) still returns
`success=True`; the malformed row contributes nothing while every
other row's contribution is kept, so the listing count is at most one
below that of the same page with the row well-formed. -/
theorem singleBadRow (pre post : List BybitScraper.Row)
    (bad good : BybitScraper.Row)
    (hbad : BybitScraper.rowListing bad = none) :
    (BybitScraper.pageSuccess (pre ++ bad :: post)).success = true ∧
    BybitScraper.collectListings (pre ++ bad :: post) =
      BybitScraper.collectListings pre ++ BybitScraper.collectListings post ∧
    ((BybitScraper.pageSuccess (pre ++ good :: post)).listings.getD []).length ≤
      ((BybitScraper.pageSuccess (pre ++ bad :: post)).listings.getD []).length + 1 := by
  have hsplit : BybitScraper.collectListings (pre ++ bad :: post) =
      BybitScraper.collectListings pre ++ BybitScraper.collectListings post := by
    unfold BybitScraper.collectListings
    rw [List.filterMap_append, List.filterMap_cons_none hbad]
  refine ⟨rfl, hsplit, ?_⟩
  simp only [BybitScraper.pageSuccess, Option.getD_some, List.length_insertionSort]
  rw [hsplit]
  unfold BybitScraper.collectListings
  rw [List.filterMap_append]
  rcases hg : BybitScraper.rowListing good with _ | l
  · rw [List.filterMap_cons_none hg]
    simp
  · rw [List.filterMap_cons_some hg]
    simp only [List.length_append, List.length_cons]
    omega

theorem singleBadRow_witness :
    (BybitScraper.pageSuccess
      [⟨some ['9'], none⟩, ⟨none, none⟩, ⟨some ['7'], none⟩]).success = true ∧
    BybitScraper.collectListings
        [⟨some ['9'], none⟩, ⟨none, none⟩, ⟨some ['7'], none⟩] =
      BybitScraper.collectListings [⟨some ['9'], none⟩] ++
        BybitScraper.collectListings [⟨some ['7'], none⟩] ∧
    ((BybitScraper.pageSuccess
      [⟨some ['9'], none⟩, ⟨some ['8'], none⟩, ⟨some ['7'], none⟩]).listings.getD []).length ≤
      ((BybitScraper.pageSuccess
        [⟨some ['9'], none⟩, ⟨none, none⟩, ⟨some ['7'], none⟩]).listings.getD []).length + 1 :=
  singleBadRow [⟨some ['9'], none⟩] [⟨some ['7'], none⟩]
    ⟨none, none⟩ ⟨some ['8'], none⟩ (by decide)

namespace BinanceP2PAPI

lemma buildListings_eq_none {bad : Ad} (pre post : List Ad)
    (hbad : adListing bad = none) :
    buildListings (pre ++ bad :: post) = none := by
  induction pre with
  | nil =>
    simp only [List.nil_append, buildListings, hbad]
  | cons a pre ih =>
    simp only [List.cons_append, buildListings]
    rcases ha : adListing a with _ | l
    · simp [ha]
    · simp [ha, ih]

end BinanceP2PAPI

/-- **C6**.  A payload containing a malformed advertisement (one whose
price field is missing or not numeric, so `float` raises) makes the
whole Binance call fail: `success=False`, a descriptive message, and
no listings key at all (the partial local list is discarded); a
response without the expected top-level `data` field likewise yields
`success=False` with its own message and no listings. -/
theorem binanceMalformed (pre post : List BinanceP2PAPI.Ad)
    (bad : BinanceP2PAPI.Ad) (hbad : bad.price = none) :
    ((BinanceP2PAPI.get_p2p_listings (.payload (pre ++ bad :: post))).success = false ∧
     (BinanceP2PAPI.get_p2p_listings (.payload (pre ++ bad :: post))).message =
       some BinanceP2PAPI.malformedAdMsg ∧
     (BinanceP2PAPI.get_p2p_listings (.payload (pre ++ bad :: post))).listings = none) ∧
    ((BinanceP2PAPI.get_p2p_listings .badFormat).success = false ∧
     (BinanceP2PAPI.get_p2p_listings .badFormat).message =
       some "Unexpected error: Invalid response format from Binance API" ∧
     (BinanceP2PAPI.get_p2p_listings .badFormat).listings = none) := by
  have hb : BinanceP2PAPI.buildListings (pre ++ bad :: post) = none :=
    BinanceP2PAPI.buildListings_eq_none pre post
      (by unfold BinanceP2PAPI.adListing; rw [hbad])
  refine ⟨?_, by decide⟩
  simp [BinanceP2PAPI.get_p2p_listings, hb]

theorem binanceMalformed_witness :
    (BinanceP2PAPI.get_p2p_listings
      (.payload [⟨some 1555, "", [], none⟩, ⟨none, "", [], none⟩])).success = false ∧
    (BinanceP2PAPI.get_p2p_listings
      (.payload [⟨some 1555, "", [], none⟩, ⟨none, "", [], none⟩])).message =
      some BinanceP2PAPI.malformedAdMsg ∧
    (BinanceP2PAPI.get_p2p_listings
      (.payload [⟨some 1555, "", [], none⟩, ⟨none, "", [], none⟩])).listings = none :=
  (binanceMalformed [⟨some 1555, "", [], none⟩] [] ⟨none, "", [], none⟩ rfl).1


namespace BybitScraper

lemma get_p2p_listings_all_timeout (outs : List AttemptOutcome)
    (hne : outs ≠ []) (hall : ∀ o ∈ outs, o = AttemptOutcome.timeout) :
    get_p2p_listings outs = some timeoutFailure := by
  induction outs with
  | nil => exact absurd rfl hne
  | cons o rest ih =>
    have ho : o = AttemptOutcome.timeout := hall o (List.mem_cons_self o rest)
    subst ho
    rcases rest with _ | ⟨r, rs⟩
    · rfl
    · have h1 : (r :: rs : List AttemptOutcome) ≠ [] := List.cons_ne_nil r rs
      have h2 : ∀ o ∈ r :: rs, o = AttemptOutcome.timeout :=
        fun o ho => hall o (List.mem_cons_of_mem _ ho)
      simp only [get_p2p_listings, List.isEmpty_cons, Bool.false_eq_true,
        if_false]
      exact ih h1 h2

lemma get_p2p_listings_unexpected (pre : List AttemptOutcome) (m : String)
    (rest : List AttemptOutcome)
    (hpre : ∀ o ∈ pre, o = AttemptOutcome.timeout) :
    get_p2p_listings (pre ++ AttemptOutcome.unexpected m :: rest) =
      some (unexpectedFailure m) := by
  induction pre with
  | nil => rfl
  | cons o pre ih =>
    have ho : o = AttemptOutcome.timeout := hpre o (List.mem_cons_self o pre)
    subst ho
    have hne : ((pre ++ AttemptOutcome.unexpected m :: rest).isEmpty) = false := by
      simp
    rw [List.cons_append]
    simp only [get_p2p_listings, hne, Bool.false_eq_true, if_false]
    exact ih fun o ho => hpre o (List.mem_cons_of_mem _ ho)

end BybitScraper

/-- **C7**.  For an attempt-outcome sequence of length
`max_retries ≥ 1`: if every attempt times out, the call returns the
timeout failure (`success=False`, a timeout message, no listings key)
only after exhausting all attempts; and an attempt that raises a
non-timeout exception (after any number of earlier timeouts) returns
immediately with `success=False` and that exception's message,
regardless of the outcomes that would have followed. -/
theorem retryPolicy (outs : List BybitScraper.AttemptOutcome) :
    (outs ≠ [] →
      (∀ o ∈ outs, o = BybitScraper.AttemptOutcome.timeout) →
      BybitScraper.get_p2p_listings outs = some BybitScraper.timeoutFailure) ∧
    (∀ (pre : List BybitScraper.AttemptOutcome) (m : String)
        (rest : List BybitScraper.AttemptOutcome),
      (∀ o ∈ pre, o = BybitScraper.AttemptOutcome.timeout) →
      outs = pre ++ BybitScraper.AttemptOutcome.unexpected m :: rest →
      BybitScraper.get_p2p_listings outs =
        some (BybitScraper.unexpectedFailure m)) ∧
    BybitScraper.timeoutFailure.success = false ∧
    BybitScraper.timeoutFailure.listings = none ∧
    BybitScraper.timeoutFailure.message =
      some "Timeout error: Page failed to load after multiple attempts" ∧
    (∀ m, (BybitScraper.unexpectedFailure m).success = false ∧
      (BybitScraper.unexpectedFailure m).listings = none ∧
      (BybitScraper.unexpectedFailure m).message = some ("Error: " ++ m)) := by
  refine ⟨BybitScraper.get_p2p_listings_all_timeout outs, ?_, rfl, rfl, rfl,
    fun m => ⟨rfl, rfl, rfl⟩⟩
  intro pre m rest hpre heq
  subst heq
  exact BybitScraper.get_p2p_listings_unexpected pre m rest hpre

theorem retryPolicy_witness :
    BybitScraper.get_p2p_listings
        [.timeout, .timeout, .timeout] = some BybitScraper.timeoutFailure ∧
    BybitScraper.get_p2p_listings
        [.timeout, .unexpected "boom"] =
      some (BybitScraper.unexpectedFailure "boom") :=
  ⟨(retryPolicy [.timeout, .timeout, .timeout]).1 (by decide) (by decide),
   (retryPolicy [.timeout, .unexpected "boom"]).2.1 [.timeout] "boom" []
     (by decide) rfl⟩

/-- **C9**.  With `max_retries ≤ 0` the body of
`for attempt in range(max_retries)` never runs, so
`get_p2p_listings` falls off the end of the function and returns
Python `None` — no result envelope at all. -/
theorem nonpositiveRetries (outcomes : ℕ → BybitScraper.AttemptOutcome)
    (max_retries : ℤ) (h : max_retries ≤ 0) :
    BybitScraper.get_p2p_listingsN outcomes max_retries = none := by
  unfold BybitScraper.get_p2p_listingsN
  rw [Int.toNat_of_nonpos h]
  rfl

theorem nonpositiveRetries_witness :
    BybitScraper.get_p2p_listingsN
      (fun _ => BybitScraper.AttemptOutcome.timeout) 0 = none :=
  nonpositiveRetries (fun _ => BybitScraper.AttemptOutcome.timeout) 0 (by decide)


namespace DataSaver

lemma dataPresent_eq_true_iff (d : Option FetchResult) :
    dataPresent d = true ↔
      ∃ r l, d = some r ∧ r.success = true ∧ r.listings = some l ∧ l ≠ [] := by
  rcases d with _ | r
  · simp [dataPresent]
  · rcases hl : r.listings with _ | l
    · simp [dataPresent, hl]
    · simp [dataPresent, hl, List.isEmpty_iff]

lemma contributed_eq_nil {d : Option FetchResult}
    (h : dataPresent d = false) : contributed d = [] := by
  rcases d with _ | r
  · rfl
  · unfold contributed
    unfold dataPresent at h
    simp only [] at h ⊢
    rw [h]
    rfl

end DataSaver

/-- **C4**.  The combined record's success flag is set exactly when at
least one passed result is present with its success flag set and a
non-empty listings key; and a source that fails this test contributes
the initial empty sequence (the `"bybit"`/`"binance"` keys are always
present in the combined dict). -/
theorem combinedSuccessIff (bybit_data binance_data : Option FetchResult) :
    ((DataSaver.combined_data bybit_data binance_data).success = true ↔
      (∃ r l, bybit_data = some r ∧ r.success = true ∧
        r.listings = some l ∧ l ≠ []) ∨
      (∃ r l, binance_data = some r ∧ r.success = true ∧
        r.listings = some l ∧ l ≠ [])) ∧
    (DataSaver.dataPresent bybit_data = false →
      (DataSaver.combined_data bybit_data binance_data).bybit = []) ∧
    (DataSaver.dataPresent binance_data = false →
      (DataSaver.combined_data bybit_data binance_data).binance = []) := by
  refine ⟨?_, fun h => DataSaver.contributed_eq_nil h,
    fun h => DataSaver.contributed_eq_nil h⟩
  rw [show (DataSaver.combined_data bybit_data binance_data).success =
      (DataSaver.dataPresent bybit_data || DataSaver.dataPresent binance_data)
    from rfl]
  rw [Bool.or_eq_true, DataSaver.dataPresent_eq_true_iff,
    DataSaver.dataPresent_eq_true_iff]

theorem combinedSuccessIff_witness :
    (DataSaver.combined_data (some ⟨true, some [], none, 0, 0⟩) none).bybit = [] ∧
    (DataSaver.combined_data (some ⟨true, some [], none, 0, 0⟩) none).binance = [] :=
  ⟨(combinedSuccessIff (some ⟨true, some [], none, 0, 0⟩) none).2.1 (by decide),
   (combinedSuccessIff (some ⟨true, some [], none, 0, 0⟩) none).2.2 (by decide)⟩

/-- **C8**.  Appending records one run at a time through
`save_to_continuous_json` and reading the store back yields exactly
the prior entries followed by the new records in append order, from
any starting state; a missing (or empty) and a corrupt store both
read back as the empty prior sequence. -/
theorem continuousJsonAppend (st : DataSaver.JsonStore)
    (ds : List DataSaver.CombinedData) :
    DataSaver.readEntries (DataSaver.appendRecords st ds) =
      DataSaver.readEntries st ++ ds ∧
    DataSaver.readEntries DataSaver.JsonStore.missing = [] ∧
    DataSaver.readEntries DataSaver.JsonStore.corrupt = [] := by
  refine ⟨?_, rfl, rfl⟩
  induction ds generalizing st with
  | nil => simp [DataSaver.appendRecords]
  | cons d ds ih =>
    have hstep : DataSaver.appendRecords st (d :: ds) =
        DataSaver.appendRecords
          (.wellFormed (DataSaver.readEntries st ++ [d])) ds := rfl
    rw [hstep, ih]
    simp [DataSaver.readEntries]

/-- **C10**.  When neither source's result is present with success and
a non-empty listing sequence, `save_data` returns with both paths
`None` and leaves both stores exactly as they were: the writing
branch is never entered. -/
theorem saveDataFrame (st : DataSaver.Stores)
    (bybit_data binance_data : Option FetchResult)
    (h1 : DataSaver.dataPresent bybit_data = false)
    (h2 : DataSaver.dataPresent binance_data = false) :
    DataSaver.save_data st bybit_data binance_data = (st, ⟨none, none⟩) := by
  unfold DataSaver.save_data
  have hs : (DataSaver.combined_data bybit_data binance_data).success = false := by
    rw [show (DataSaver.combined_data bybit_data binance_data).success =
        (DataSaver.dataPresent bybit_data || DataSaver.dataPresent binance_data)
      from rfl]
    rw [h1, h2]
    rfl
  simp [hs]

theorem saveDataFrame_witness :
    DataSaver.save_data ⟨none, DataSaver.JsonStore.missing⟩
        (some ⟨false, some [⟨1450, none⟩], none, 0, 0⟩) none =
      (⟨none, DataSaver.JsonStore.missing⟩, ⟨none, none⟩) :=
  saveDataFrame ⟨none, DataSaver.JsonStore.missing⟩
    (some ⟨false, some [⟨1450, none⟩], none, 0, 0⟩) none (by decide) (by decide)

end P2PNaira
